import Mathlib

/-!
Shallow embedding of the Starlark evaluation runtime
(`src/starlark/src/eval/runtime/evaluator.rs`) and proofs of the spec's
claims about it.

Values, spans and codemaps are abstracted to identities; the heap's
profiling record is modelled as the list of call-enter/call-exit events
recorded on it.  Collaborator types whose source is not in the analyzed
tree (`CallStack` push/pop/walk, `LocalSlots`, the module slot table,
`Diagnostic` stack attachment, `StmtProfile`) are modelled from the spec
and carry a doc comment saying so.
-/

/-- Identity of a mutable-heap value. -/
abbrev RawValue := Nat

/-- Identity of a frozen-heap value. -/
abbrev FrozenValue := Nat

/-- A source span (opaque; only identity matters for the claims). -/
abbrev Span := Nat

/-- A codemap (opaque span-resolution table; only identity matters). -/
abbrev CodeMap := Nat

/-- A Starlark value: a tagged handle into either the mutable heap or a
frozen heap, mirroring the source's `Value` / `FrozenValue` split. -/
inductive Value where
  | mutable : RawValue → Value
  | frozen : FrozenValue → Value
deriving DecidableEq, Repr

/-- `Value::new_frozen`: wrap a frozen-heap handle as a `Value`,
marking it as frozen-origin. -/
def Value.new_frozen (x : FrozenValue) : Value := Value.frozen x

/-- One entry of the call stack: the called value, the call-site span and
an optional codemap resolving that span (`CallStack` frame). -/
structure Frame where
  function : Value
  span : Span
  codemap : Option CodeMap
deriving DecidableEq, Repr

/-- A diagnostic frame as exported to error reporting:
called identity and source span. -/
structure DiagFrame where
  function : Value
  span : Span
deriving DecidableEq, Repr

/-- The error cases of the runtime core (`EvaluatorError`,
`EnvironmentError::LocalVariableReferencedBeforeAssignment`, the
call-stack overflow, and opaque user errors). -/
inductive BaseError where
  | stackOverflow : BaseError
  | unboundVariable : String → BaseError
  | profilingNotEnabled : BaseError
  | stmtProfilingNotEnabled : BaseError
  | other : Nat → BaseError
deriving DecidableEq, Repr

/-- An `anyhow::Error` as seen by this runtime: a base error plus the
optional diagnostic call stack a `Diagnostic` may carry. -/
structure EvalError where
  base : BaseError
  callStack : Option (List DiagFrame)
deriving DecidableEq, Repr

/-- `FrozenModuleRef`: a read-only view of a loaded module's slot table
(slot index → optionally assigned frozen value, plus names for errors). -/
structure FrozenModuleRef where
  slots : List (Option FrozenValue)
  names : List (Option String)
deriving DecidableEq, Repr

/-- `FrozenModuleRef::get_slot`. -/
def FrozenModuleRef.get_slot (m : FrozenModuleRef) (slot : Nat) : Option FrozenValue :=
  m.slots.getD slot none

/-- `FrozenModuleRef::get_slot_name`. -/
def FrozenModuleRef.get_slot_name (m : FrozenModuleRef) (slot : Nat) : Option String :=
  m.names.getD slot none

/-- A call-enter / call-exit marker recorded on the heap by the
call/heap profiler. -/
inductive ProfEvent where
  | callEnter : Value → ProfEvent
  | callExit : ProfEvent
deriving DecidableEq, Repr

/-- Modelled from the spec: the statement profiler (`StmtProfile`, whose
source is not in the analyzed tree) is an opt-in collector; it records the
codemap it was given and produces output only once enabled. -/
structure StmtProfile where
  enabled : Bool
  codemapRec : Option CodeMap
deriving DecidableEq, Repr

/-- `StmtProfile::enable`. -/
def StmtProfile.enable (p : StmtProfile) : StmtProfile :=
  { p with enabled := true }

/-- Modelled from the spec: `StmtProfile::set_codemap` records the codemap
for later output when the collector is enabled. -/
def StmtProfile.set_codemap (p : StmtProfile) (c : CodeMap) : StmtProfile :=
  if p.enabled then { p with codemapRec := some c } else p

/-- Modelled from the spec: `StmtProfile::write` yields `none` when the
statement profiler was never enabled, and the output otherwise. -/
def StmtProfile.write (p : StmtProfile) : Option (Except EvalError Unit) :=
  if p.enabled then some (Except.ok ()) else none

/-- Number of bytes to allocate between GCs (`GC_THRESHOLD`). -/
def GC_THRESHOLD : Nat := 100000

/-- Modelled from the spec: the implementation-defined recursion limit of
the call stack (`CallStack` source is not in the analyzed tree). -/
def MAX_CALLSTACK_SIZE : Nat := 50

/-- Modelled from the spec: `CallStack::push` adds a frame on top, failing
with a stack-overflow error when the recursion limit is exceeded. -/
def callStackPush (stack : List Frame) (function : Value) (span : Span)
    (cm : Option CodeMap) : Except EvalError (List Frame) :=
  if MAX_CALLSTACK_SIZE ≤ stack.length then
    Except.error ⟨BaseError.stackOverflow, none⟩
  else
    Except.ok (⟨function, span, cm⟩ :: stack)

/-- Modelled from the spec: `CallStack::to_diagnostic_frames` exports the
frames, innermost first. -/
def to_diagnostic_frames (stack : List Frame) : List DiagFrame :=
  stack.map (fun fr => ⟨fr.function, fr.span⟩)

/-- The `Evaluator`: the mutable execution context.  The bound module is
inlined as its slot table (`moduleSlots`) and slot-name table
(`moduleNames`); the heap's profiling record is `profileEvents`. -/
structure Evaluator where
  moduleSlots : List (Option Value)
  moduleNames : List (Option String)
  moduleVariables : Option FrozenModuleRef
  localVariables : List (List (Option Value))
  callStack : List Frame
  codemap : CodeMap
  profiling : Bool
  disableGc : Bool
  nextGcLevel : Nat
  stmtProfile : StmtProfile
  profileEvents : List ProfEvent
deriving DecidableEq, Repr

/-- `Evaluator::new`: fresh context bound to a module (given by its slot
and name tables); GC enabled, profiling disabled, empty stacks, the
placeholder codemap (identity 0) installed. -/
def Evaluator.new (moduleSlots : List (Option Value))
    (moduleNames : List (Option String)) : Evaluator :=
  { moduleSlots := moduleSlots
    moduleNames := moduleNames
    moduleVariables := none
    localVariables := []
    callStack := []
    codemap := 0
    profiling := false
    disableGc := false
    nextGcLevel := GC_THRESHOLD
    stmtProfile := { enabled := false, codemapRec := none }
    profileEvents := [] }

/-- `Evaluator::disable_gc`: disables garbage collection from now on. -/
def Evaluator.disable_gc (e : Evaluator) : Evaluator :=
  { e with disableGc := true }

/-- `Evaluator::enable_profile`: enables profiling and, as a side effect,
disables garbage collection. -/
def Evaluator.enable_profile (e : Evaluator) : Evaluator :=
  { e with profiling := true, disableGc := true }

/-- `Evaluator::enable_stmt_profile`: enables the statement profiler
(it registers a before-statement hook; the hook list itself is not
observable by any claim and is omitted). -/
def Evaluator.enable_stmt_profile (e : Evaluator) : Evaluator :=
  { e with stmtProfile := e.stmtProfile.enable }

/-- `Evaluator::write_profile`: fails with `ProfilingNotEnabled` unless
`enable_profile` was called; otherwise writes the heap's profile,
modelled as returning the recorded events. -/
def Evaluator.write_profile (e : Evaluator) :
    Except EvalError (List ProfEvent) :=
  if !e.profiling then Except.error ⟨BaseError.profilingNotEnabled, none⟩
  else Except.ok e.profileEvents

/-- `Evaluator::write_stmt_profile`: delegates to `StmtProfile::write`,
turning its `none` (never enabled) into `StmtProfilingNotEnabled`. -/
def Evaluator.write_stmt_profile (e : Evaluator) : Except EvalError Unit :=
  match e.stmtProfile.write with
  | some r => r
  | none => Except.error ⟨BaseError.stmtProfilingNotEnabled, none⟩

/-- `record_call_enter` on the heap: append an enter marker. -/
def Evaluator.record_call_enter (e : Evaluator) (function : Value) : Evaluator :=
  { e with profileEvents := e.profileEvents ++ [ProfEvent.callEnter function] }

/-- `record_call_exit` on the heap: append an exit marker. -/
def Evaluator.record_call_exit (e : Evaluator) : Evaluator :=
  { e with profileEvents := e.profileEvents ++ [ProfEvent.callExit] }

/-- Modelled from the spec: `Diagnostic::modify` + `set_call_stack`
(the `Diagnostic` source is not in the analyzed tree) attach the captured
call stack to a failure only when none is attached yet, so enrichment
happens exactly once. -/
def add_diagnostics (err : EvalError) (e : Evaluator) : EvalError :=
  match err.callStack with
  | none => ⟨err.base, some (to_diagnostic_frames e.callStack)⟩
  | some _ => err

/-- `Evaluator::with_call_stack`: push a frame (possibly failing),
record a profiling enter event, run `within`, attach diagnostics to a
failure before popping, pop, record the exit event. -/
def Evaluator.with_call_stack {R : Type} (e : Evaluator) (function : Value)
    (span : Option Span)
    (within : Evaluator → Except EvalError R × Evaluator) :
    Except EvalError R × Evaluator :=
  match callStackPush e.callStack function (span.getD 0)
      (span.map (fun _ => e.codemap)) with
  | Except.error err => (Except.error err, e)
  | Except.ok newStack =>
    let e1 : Evaluator := { e with callStack := newStack }
    let e2 := if e1.profiling then e1.record_call_enter function else e1
    let q := within e2
    let res : Except EvalError R :=
      match q.1 with
      | Except.error err => Except.error (add_diagnostics err q.2)
      | Except.ok r => Except.ok r
    let e3 : Evaluator := { q.2 with callStack := q.2.callStack.tail }
    let e4 := if e3.profiling then e3.record_call_exit else e3
    (res, e4)

/-- `Evaluator::set_codemap`: swap the current codemap, informing the
statement profiler, and return the previous one. -/
def Evaluator.set_codemap (e : Evaluator) (codemap : CodeMap) :
    CodeMap × Evaluator :=
  (e.codemap,
    { e with codemap := codemap,
             stmtProfile := e.stmtProfile.set_codemap codemap })

/-- `Evaluator::with_function_context`: save the codemap and the
module-variable override, install the callee's, run `within`, and
restore both saved values unconditionally. -/
def Evaluator.with_function_context {R : Type} (e : Evaluator)
    (module : Option FrozenModuleRef) (codemap : CodeMap)
    (within : Evaluator → R × Evaluator) : R × Evaluator :=
  let p := e.set_codemap codemap
  let old_codemap := p.1
  let e1 := p.2
  let old_module_variables := e1.moduleVariables
  let e2 : Evaluator := { e1 with moduleVariables := module }
  let q := within e2
  let e3 := (q.2.set_codemap old_codemap).2
  let e4 : Evaluator := { e3 with moduleVariables := old_module_variables }
  (q.1, e4)

/-- `Evaluator::get_slot_module`, error path: recover the human-readable
name of the slot, consulting the active override when present. -/
def Evaluator.get_slot_module_err_name (e : Evaluator) (slot : Nat) : String :=
  (match e.moduleVariables with
   | none => e.moduleNames.getD slot none
   | some m => m.get_slot_name slot).getD "<unknown>"

/-- `Evaluator::get_slot_module`: read a module slot, from the bound
module's own table when no override is active, from the override (wrapped
via `Value::new_frozen`) otherwise; unassigned slots fail with the
unbound-variable error carrying the lazily recovered name. -/
def Evaluator.get_slot_module (e : Evaluator) (slot : Nat) :
    Except EvalError Value :=
  match (match e.moduleVariables with
         | none => e.moduleSlots.getD slot none
         | some m => (m.get_slot slot).map Value.new_frozen) with
  | some v => Except.ok v
  | none =>
    Except.error ⟨BaseError.unboundVariable (e.get_slot_module_err_name slot),
                  none⟩

/-- Modelled from the spec: `LocalSlots::get_slot` resolves a local slot
against the top-of-stack local frame only. -/
def localsGetSlot (frames : List (List (Option Value))) (slot : Nat) :
    Option Value :=
  (frames.headD []).getD slot none

/-- `Evaluator::get_slot_local`: read a local slot from the top frame;
unassigned slots fail with the unbound-variable error carrying the name
the caller supplied. -/
def Evaluator.get_slot_local (e : Evaluator) (slot : Nat) (name : String) :
    Except EvalError Value :=
  match localsGetSlot e.localVariables slot with
  | some v => Except.ok v
  | none => Except.error ⟨BaseError.unboundVariable name, none⟩

/-- `Evaluator::set_slot_module`: unconditional write. -/
def Evaluator.set_slot_module (e : Evaluator) (slot : Nat) (v : Value) :
    Evaluator :=
  { e with moduleSlots := e.moduleSlots.set slot (some v) }

/-- Modelled from the spec: `LocalSlots::set_slot` writes the top frame. -/
def localsSetSlot (frames : List (List (Option Value))) (slot : Nat)
    (v : Value) : List (List (Option Value)) :=
  match frames with
  | [] => []
  | f :: rest => f.set slot (some v) :: rest

/-- `Evaluator::set_slot_local`: unconditional write to the top frame. -/
def Evaluator.set_slot_local (e : Evaluator) (slot : Nat) (v : Value) :
    Evaluator :=
  { e with localVariables := localsSetSlot e.localVariables slot v }

/-- `Evaluator::trigger_gc`: force a collection opportunity at the next
allocation checkpoint by zeroing the watermark. -/
def Evaluator.trigger_gc (e : Evaluator) : Evaluator :=
  { e with nextGcLevel := 0 }

/-- `walk_opt` of the GC walker: present the value of an assigned slot,
nothing for an unassigned one. -/
def walk_opt (x : Option Value) : List Value :=
  match x with
  | none => []
  | some v => [v]

/-- Modelled from the spec: `LocalSlots::walk` presents every slot of
every local frame on the stack. -/
def localsWalk (frames : List (List (Option Value))) : List Value :=
  (frames.map (fun f => (f.map walk_opt).flatten)).flatten

/-- Modelled from the spec: `CallStack::walk` presents every value
referenced by an active frame (the called value of each frame). -/
def callStackWalk (stack : List Frame) : List Value :=
  stack.map (fun fr => fr.function)

/-- `Evaluator::walk`: present the module slots of the bound module, then
the local frames, then the call stack, to the tracer (the walker is
modelled as collecting the sequence of presented roots). -/
def Evaluator.walk (e : Evaluator) : List Value :=
  (e.moduleSlots.map walk_opt).flatten ++ localsWalk e.localVariables
    ++ callStackWalk e.callStack

/-! ## Helper lemmas -/

theorem record_call_enter_callStack (e : Evaluator) (f : Value) :
    (e.record_call_enter f).callStack = e.callStack := rfl

theorem record_call_enter_profiling (e : Evaluator) (f : Value) :
    (e.record_call_enter f).profiling = e.profiling := rfl

theorem record_call_enter_disableGc (e : Evaluator) (f : Value) :
    (e.record_call_enter f).disableGc = e.disableGc := rfl

theorem record_call_exit_callStack (e : Evaluator) :
    e.record_call_exit.callStack = e.callStack := rfl

theorem record_call_exit_disableGc (e : Evaluator) :
    e.record_call_exit.disableGc = e.disableGc := rfl

theorem ite_eval_callStack (c : Bool) (a b : Evaluator) :
    (if c then a else b).callStack = if c then a.callStack else b.callStack := by
  cases c <;> rfl

theorem ite_eval_disableGc (c : Bool) (a b : Evaluator) :
    (if c then a else b).disableGc = if c then a.disableGc else b.disableGc := by
  cases c <;> rfl

/-- A sample module slot table: slot 0 assigned, slot 1 unassigned. -/
def sampleSlots : List (Option Value) := [some (Value.mutable 7), none]

/-- A sample slot-name table matching `sampleSlots`. -/
def sampleNames : List (Option String) := [some "x", some "y"]

/-- A sample fresh evaluator used by the concrete witnesses. -/
def sampleEvaluator : Evaluator := Evaluator.new sampleSlots sampleNames

/-! ## Claims -/

/-- Claim C3: `with_function_context` restores both the module-variable
override and the codemap to their prior values after `within` returns,
for every body `within` (hence whether it produced a normal or an error
value) and every override and codemap installed for the callee. -/
theorem C3_function_context_restores {R : Type} (e : Evaluator)
    (module : Option FrozenModuleRef) (codemap : CodeMap)
    (within : Evaluator → R × Evaluator) :
    ((e.with_function_context module codemap within).2).moduleVariables
        = e.moduleVariables
    ∧ ((e.with_function_context module codemap within).2).codemap = e.codemap := by
  unfold Evaluator.with_function_context Evaluator.set_codemap
  simp

theorem enter_ite_disableGc (c : Bool) (b : Evaluator) (f : Value) :
    (if c then b.record_call_enter f else b).disableGc = b.disableGc := by
  cases c <;> simp [Evaluator.record_call_enter]

theorem exit_ite_disableGc (c : Bool) (b : Evaluator) :
    (if c then b.record_call_exit else b).disableGc = b.disableGc := by
  cases c <;> simp [Evaluator.record_call_exit]

/-- Claim C6: `enable_profile` sets the profiling flag and the
disable-GC flag, in any prior state; and every operation of the
Evaluator preserves a set disable-GC flag (for the two operations that
run a caller-supplied body, under the inductive hypothesis that the body
itself preserves it, which holds for bodies composed of these
operations). -/
theorem C6_profile_disables_gc (e : Evaluator) :
    ((e.enable_profile).profiling = true ∧ (e.enable_profile).disableGc = true)
    ∧ (e.disableGc = true →
        (e.disable_gc).disableGc = true
        ∧ (e.enable_profile).disableGc = true
        ∧ (e.enable_stmt_profile).disableGc = true
        ∧ (e.trigger_gc).disableGc = true
        ∧ (∀ slot v, (e.set_slot_module slot v).disableGc = true)
        ∧ (∀ slot v, (e.set_slot_local slot v).disableGc = true)
        ∧ (∀ c, ((e.set_codemap c).2).disableGc = true)
        ∧ (∀ (R : Type) (m : Option FrozenModuleRef) (c : CodeMap)
            (within : Evaluator → R × Evaluator),
            (∀ x, x.disableGc = true → ((within x).2).disableGc = true) →
            ((e.with_function_context m c within).2).disableGc = true)
        ∧ (∀ (R : Type) (f : Value) (sp : Option Span)
            (within : Evaluator → Except EvalError R × Evaluator),
            (∀ x, x.disableGc = true → ((within x).2).disableGc = true) →
            ((e.with_call_stack f sp within).2).disableGc = true)) := by
  refine ⟨⟨rfl, rfl⟩, fun hgc => ⟨rfl, rfl, hgc, hgc, fun _ _ => hgc, fun _ _ => hgc,
    fun _ => hgc, fun R m c within hw => ?_, fun R f sp within hw => ?_⟩⟩
  · unfold Evaluator.with_function_context Evaluator.set_codemap
    exact hw _ hgc
  · unfold Evaluator.with_call_stack callStackPush
    by_cases hlen : MAX_CALLSTACK_SIZE ≤ e.callStack.length
    · simp only [if_pos hlen]
      exact hgc
    · simp only [if_neg hlen]
      rw [exit_ite_disableGc]
      apply hw
      rw [enter_ite_disableGc]
      exact hgc

/-- Claim C6 witness: at a concrete evaluator with the flag set, the
operations preserve it; here `trigger_gc` and a `with_function_context`
with an identity body. -/
theorem C6_profile_disables_gc_witness :
    ((sampleEvaluator.enable_profile).trigger_gc).disableGc = true ∧
    (((sampleEvaluator.enable_profile).with_function_context none 3
        (fun x => (0, x))).2).disableGc = true := by
  refine ⟨((C6_profile_disables_gc sampleEvaluator.enable_profile).2 rfl).2.2.2.1, ?_⟩
  exact ((C6_profile_disables_gc sampleEvaluator.enable_profile).2 rfl).2.2.2.2.2.2.2.1
    Nat none 3 (fun x => (0, x)) (fun x hx => hx)

/-- Claim C7: `write_profile` on an evaluator whose profiling was never
enabled (flag still false, as a fresh evaluator has it) fails with
`ProfilingNotEnabled`; `write_stmt_profile` without `enable_stmt_profile`
fails with `StmtProfilingNotEnabled`; neither produces output (the error
is returned in place of any output).  The last two conjuncts record that
a fresh evaluator indeed starts with both collectors disabled. -/
theorem C7_write_profile_not_enabled (e : Evaluator)
    (ms : List (Option Value)) (mn : List (Option String)) :
    (e.profiling = false →
      e.write_profile = Except.error ⟨BaseError.profilingNotEnabled, none⟩)
    ∧ (e.stmtProfile.enabled = false →
      e.write_stmt_profile
        = Except.error ⟨BaseError.stmtProfilingNotEnabled, none⟩)
    ∧ (Evaluator.new ms mn).profiling = false
    ∧ ((Evaluator.new ms mn).stmtProfile).enabled = false := by
  refine ⟨fun hp => ?_, fun hs => ?_, rfl, rfl⟩
  · unfold Evaluator.write_profile
    rw [hp]
    rfl
  · unfold Evaluator.write_stmt_profile StmtProfile.write
    rw [hs]
    rfl

/-- Claim C7 witness: the fresh sample evaluator fails both requests. -/
theorem C7_write_profile_not_enabled_witness :
    sampleEvaluator.write_profile
        = Except.error ⟨BaseError.profilingNotEnabled, none⟩
    ∧ sampleEvaluator.write_stmt_profile
        = Except.error ⟨BaseError.stmtProfilingNotEnabled, none⟩ :=
  ⟨(C7_write_profile_not_enabled sampleEvaluator [] []).1 rfl,
   (C7_write_profile_not_enabled sampleEvaluator [] []).2.1 rfl⟩

/-- Claim C4: reading a module or local slot whose cell was never
assigned (`none`) yields the unbound-variable error — never a default
value — carrying the human-readable name recovered on the error path
(from the name table for module slots, from the caller's argument for
local slots); reading an assigned slot succeeds with the assigned
value. -/
theorem C4_unbound_slot_read (e : Evaluator) (slot : Nat) (name : String) :
    (e.moduleVariables = none →
      (e.moduleSlots.getD slot none = none →
        e.get_slot_module slot
          = Except.error ⟨BaseError.unboundVariable
              ((e.moduleNames.getD slot none).getD "<unknown>"), none⟩)
      ∧ (∀ v, e.moduleSlots.getD slot none = some v →
          e.get_slot_module slot = Except.ok v))
    ∧ (localsGetSlot e.localVariables slot = none →
        e.get_slot_local slot name
          = Except.error ⟨BaseError.unboundVariable name, none⟩)
    ∧ (∀ v, localsGetSlot e.localVariables slot = some v →
        e.get_slot_local slot name = Except.ok v) := by
  refine ⟨fun hmv => ⟨fun hnone => ?_, fun v hsome => ?_⟩,
    fun hnone => ?_, fun v hsome => ?_⟩
  · unfold Evaluator.get_slot_module Evaluator.get_slot_module_err_name
      FrozenModuleRef.get_slot_name
    rw [hmv]
    simp only [List.getD_eq_getElem?_getD] at hnone
    simp [hnone]
  · unfold Evaluator.get_slot_module
    rw [hmv]
    simp only [List.getD_eq_getElem?_getD] at hsome
    simp [hsome]
  · unfold Evaluator.get_slot_local
    rw [hnone]
  · unfold Evaluator.get_slot_local
    rw [hsome]

/-- Claim C4 witness: in the sample evaluator (no override, slot 0
assigned to value 7 named "x", slot 1 unassigned named "y", no local
frame) the three behaviours are observed concretely. -/
theorem C4_unbound_slot_read_witness :
    sampleEvaluator.get_slot_module 1
      = Except.error ⟨BaseError.unboundVariable "y", none⟩
    ∧ sampleEvaluator.get_slot_module 0 = Except.ok (Value.mutable 7)
    ∧ sampleEvaluator.get_slot_local 0 "z"
      = Except.error ⟨BaseError.unboundVariable "z", none⟩ :=
  ⟨by
    have h := ((C4_unbound_slot_read sampleEvaluator 1 "z").1 rfl).1 rfl
    simpa using h,
   ((C4_unbound_slot_read sampleEvaluator 0 "z").1 rfl).2 (Value.mutable 7) rfl,
   (C4_unbound_slot_read sampleEvaluator 0 "z").2.1 rfl⟩

/-- Claim C8: for an assigned slot, `get_slot_module` reads the bound
module's own table when no override is active; when an override is
active it reads the override's slot and wraps it via `Value::new_frozen`
(frozen-origin); and while an override is active the result does not
depend on the bound module's own slots at all. -/
theorem C8_module_slot_resolution (e : Evaluator) (slot : Nat) :
    (e.moduleVariables = none →
      ∀ v, e.moduleSlots.getD slot none = some v →
        e.get_slot_module slot = Except.ok v)
    ∧ (∀ m, e.moduleVariables = some m →
        ∀ fv, m.get_slot slot = some fv →
          e.get_slot_module slot = Except.ok (Value.new_frozen fv))
    ∧ (∀ m, e.moduleVariables = some m →
        ∀ slots2, ({ e with moduleSlots := slots2 } : Evaluator).get_slot_module slot
          = e.get_slot_module slot) := by
  refine ⟨fun hmv v hsome => ?_, fun m hmv fv hsome => ?_,
    fun m hmv slots2 => ?_⟩
  · unfold Evaluator.get_slot_module
    rw [hmv]
    simp only [List.getD_eq_getElem?_getD] at hsome
    simp [hsome]
  · unfold Evaluator.get_slot_module
    rw [hmv]
    simp [hsome]
  · unfold Evaluator.get_slot_module Evaluator.get_slot_module_err_name
    rw [hmv]

/-- Claim C8 witness: an evaluator with an override whose slot 0 holds
frozen value 5 resolves slot 0 to the frozen-origin value, ignoring its
own module slots; without the override it reads its own table. -/
theorem C8_module_slot_resolution_witness :
    ({ sampleEvaluator with
        moduleVariables := some ⟨[some 5], [some "f"]⟩ } : Evaluator).get_slot_module 0
      = Except.ok (Value.frozen 5)
    ∧ ({ sampleEvaluator with
        moduleVariables := some ⟨[some 5], [some "f"]⟩,
        moduleSlots := [] } : Evaluator).get_slot_module 0
      = Except.ok (Value.frozen 5)
    ∧ sampleEvaluator.get_slot_module 0 = Except.ok (Value.mutable 7) := by
  refine ⟨?_, ?_, ?_⟩
  · exact (C8_module_slot_resolution _ 0).2.1 ⟨[some 5], [some "f"]⟩ rfl 5 rfl
  · rw [(C8_module_slot_resolution
      ({ sampleEvaluator with
          moduleVariables := some ⟨[some 5], [some "f"]⟩ } : Evaluator) 0).2.2
      ⟨[some 5], [some "f"]⟩ rfl []]
    exact (C8_module_slot_resolution _ 0).2.1 ⟨[some 5], [some "f"]⟩ rfl 5 rfl
  · exact (C8_module_slot_resolution sampleEvaluator 0).1 rfl (Value.mutable 7) rfl

theorem mem_walk_opt (v : Value) (x : Option Value) :
    v ∈ walk_opt x ↔ x = some v := by
  cases x <;> simp [walk_opt, eq_comm]

/-- Claim C9: a value is presented to the tracer by `walk` exactly when
it sits in an assigned module slot of the bound module, or in an
assigned slot of some local frame on the stack, or is referenced (as the
called value) by some active call-stack frame — nothing else is
presented, none of these is skipped. -/
theorem C9_walk_roots (e : Evaluator) (v : Value) :
    v ∈ e.walk ↔
      (some v ∈ e.moduleSlots
        ∨ (∃ fr ∈ e.localVariables, some v ∈ fr)
        ∨ (∃ fr ∈ e.callStack, fr.function = v)) := by
  unfold Evaluator.walk localsWalk callStackWalk
  simp only [List.mem_append, List.mem_flatten, List.mem_map]
  constructor
  · rintro ((⟨l, ⟨x, hx, rfl⟩, hv⟩ | ⟨l, ⟨fr, hfr, rfl⟩, hv⟩) | ⟨fr, hfr, rfl⟩)
    · exact Or.inl ((mem_walk_opt v x).1 hv ▸ hx)
    · rcases List.mem_flatten.1 hv with ⟨l2, hl2, hv2⟩
      rcases List.mem_map.1 hl2 with ⟨x, hx, rfl⟩
      exact Or.inr (Or.inl ⟨fr, hfr, (mem_walk_opt v x).1 hv2 ▸ hx⟩)
    · exact Or.inr (Or.inr ⟨fr, hfr, rfl⟩)
  · rintro (hmem | ⟨fr, hfr, hmem⟩ | ⟨fr, hfr, hv⟩)
    · exact Or.inl (Or.inl ⟨walk_opt (some v), ⟨some v, hmem, rfl⟩, by simp [walk_opt]⟩)
    · refine Or.inl (Or.inr ⟨(fr.map walk_opt).flatten, ⟨fr, hfr, rfl⟩, ?_⟩)
      exact List.mem_flatten.2 ⟨walk_opt (some v), List.mem_map.2 ⟨some v, hmem, rfl⟩,
        by simp [walk_opt]⟩
    · exact Or.inr ⟨fr, hfr, hv⟩

/-- The state of the evaluator right after `with_call_stack` has pushed
its frame and recorded the profiling enter event. -/
def pushedState (x : Evaluator) (g : Value) (sp : Option Span) : Evaluator :=
  let x1 : Evaluator :=
    { x with callStack := ⟨g, sp.getD 0, sp.map (fun _ => x.codemap)⟩ :: x.callStack }
  if x1.profiling then x1.record_call_enter g else x1

/-- The state of the evaluator after `with_call_stack` has popped the
frame and recorded the profiling exit event. -/
def poppedState (b : Evaluator) : Evaluator :=
  let b3 : Evaluator := { b with callStack := b.callStack.tail }
  if b3.profiling then b3.record_call_exit else b3

theorem pushedState_callStack (x : Evaluator) (g : Value) (sp : Option Span) :
    (pushedState x g sp).callStack
      = ⟨g, sp.getD 0, sp.map (fun _ => x.codemap)⟩ :: x.callStack := by
  unfold pushedState
  cases hp : x.profiling <;> simp [hp, Evaluator.record_call_enter]

theorem poppedState_callStack (b : Evaluator) :
    (poppedState b).callStack = b.callStack.tail := by
  unfold poppedState
  cases hp : b.profiling <;> simp [hp, Evaluator.record_call_exit]

/-- `with_call_stack` unfolded on the non-overflow path. -/
theorem with_call_stack_eq {R : Type} (x : Evaluator) (g : Value)
    (sp : Option Span) (within : Evaluator → Except EvalError R × Evaluator)
    (hlen : x.callStack.length < MAX_CALLSTACK_SIZE) :
    x.with_call_stack g sp within
      = ((match (within (pushedState x g sp)).1 with
          | Except.error err =>
            Except.error (add_diagnostics err (within (pushedState x g sp)).2)
          | Except.ok r => Except.ok r),
         poppedState (within (pushedState x g sp)).2) := by
  unfold Evaluator.with_call_stack callStackPush pushedState poppedState
  rw [if_neg (Nat.not_le.2 hlen)]

/-- `with_call_stack` unfolded on the overflow path. -/
theorem with_call_stack_overflow_eq {R : Type} (x : Evaluator) (g : Value)
    (sp : Option Span) (within : Evaluator → Except EvalError R × Evaluator)
    (hlen : MAX_CALLSTACK_SIZE ≤ x.callStack.length) :
    x.with_call_stack g sp within
      = (Except.error ⟨BaseError.stackOverflow, none⟩, x) := by
  unfold Evaluator.with_call_stack callStackPush
  rw [if_pos hlen]

/-- Claim C1: for any function value, span, and body whose net effect
preserves the call-stack depth (as every balanced body does), the
call-stack depth after `with_call_stack` returns equals the depth before
it began — on the overflow path, the success path and the failure path
alike: the pushed frame is popped exactly once. -/
theorem C1_call_stack_balanced {R : Type} (e : Evaluator) (f : Value)
    (sp : Option Span) (within : Evaluator → Except EvalError R × Evaluator)
    (h : ∀ x, ((within x).2).callStack.length = x.callStack.length) :
    ((e.with_call_stack f sp within).2).callStack.length
      = e.callStack.length := by
  by_cases hlen : MAX_CALLSTACK_SIZE ≤ e.callStack.length
  · rw [with_call_stack_overflow_eq e f sp within hlen]
  · rw [with_call_stack_eq e f sp within (Nat.not_le.1 hlen)]
    rw [poppedState_callStack, List.length_tail, h, pushedState_callStack]
    simp

/-- Claim C1 witness: a concrete call with a depth-preserving body
(both a succeeding and a failing one) leaves the depth unchanged. -/
theorem C1_call_stack_balanced_witness :
    ((sampleEvaluator.with_call_stack (Value.mutable 1) none
        (fun x => (Except.ok 0, x))).2).callStack.length
      = sampleEvaluator.callStack.length
    ∧ ((sampleEvaluator.with_call_stack (Value.mutable 1) none
        (fun x => ((Except.error ⟨BaseError.other 3, none⟩ : Except EvalError Nat),
          x))).2).callStack.length
      = sampleEvaluator.callStack.length :=
  ⟨C1_call_stack_balanced sampleEvaluator (Value.mutable 1) none
      (fun x => (Except.ok 0, x)) (fun _ => rfl),
   C1_call_stack_balanced sampleEvaluator (Value.mutable 1) none
      (fun x => (Except.error ⟨BaseError.other 3, none⟩, x)) (fun _ => rfl)⟩

/-- Claim C10: when the push fails (recursion limit exceeded),
`with_call_stack` returns the push error and the evaluator exactly as it
was — no body invocation (the result is the same for every body), no
profiling event, no pop. -/
theorem C10_overflow_leaves_state {R : Type} (e : Evaluator) (f : Value)
    (sp : Option Span) (within : Evaluator → Except EvalError R × Evaluator)
    (hlen : MAX_CALLSTACK_SIZE ≤ e.callStack.length) :
    e.with_call_stack f sp within
      = (Except.error ⟨BaseError.stackOverflow, none⟩, e) :=
  with_call_stack_overflow_eq e f sp within hlen

/-- A sample evaluator whose call stack is at the recursion limit. -/
def overflowEvaluator : Evaluator :=
  { sampleEvaluator with
      callStack := List.replicate 50 ⟨Value.mutable 0, 0, none⟩ }

/-- Claim C10 witness: at the limit, a concrete call returns the
overflow error with the evaluator untouched. -/
theorem C10_overflow_leaves_state_witness :
    overflowEvaluator.with_call_stack (Value.mutable 1) none
        (fun x => ((Except.ok 0 : Except EvalError Nat), x))
      = (Except.error ⟨BaseError.stackOverflow, none⟩, overflowEvaluator) :=
  C10_overflow_leaves_state overflowEvaluator (Value.mutable 1) none
    (fun x => (Except.ok 0, x)) (by decide)

/-- Claim C2: when the body fails (returning a fresh error and, being
balanced, restoring the stack it was given), the propagated error
carries the diagnostic frames captured while the frame pushed for this
call was still on the stack: the attached list starts with this very
call's frame (capture happens before the pop). -/
theorem C2_capture_before_pop {R : Type} (e : Evaluator) (f : Value)
    (sp : Option Span) (within : Evaluator → Except EvalError R × Evaluator)
    (err : EvalError)
    (hlen : e.callStack.length < MAX_CALLSTACK_SIZE)
    (hcs : err.callStack = none)
    (hw : ∀ x, (within x).1 = Except.error err
      ∧ ((within x).2).callStack = x.callStack) :
    (e.with_call_stack f sp within).1
      = Except.error
          ⟨err.base,
           some (⟨f, sp.getD 0⟩ :: to_diagnostic_frames e.callStack)⟩ := by
  have h1 : ∀ x, (within x).1 = Except.error err := fun x => (hw x).1
  have h2 : ∀ x, ((within x).2).callStack = x.callStack := fun x => (hw x).2
  rw [with_call_stack_eq e f sp within hlen]
  simp only [h1, add_diagnostics, hcs, h2, pushedState_callStack,
    to_diagnostic_frames, List.map_cons]

/-- Claim C2 witness: a concrete failing call on the sample evaluator
yields the error enriched with exactly its own frame. -/
theorem C2_capture_before_pop_witness :
    (sampleEvaluator.with_call_stack (Value.mutable 2) (some 9)
        (fun x => ((Except.error ⟨BaseError.other 3, none⟩ : Except EvalError Nat),
          x))).1
      = Except.error ⟨BaseError.other 3, some [⟨Value.mutable 2, 9⟩]⟩ := by
  have h := C2_capture_before_pop (R := Nat) sampleEvaluator (Value.mutable 2)
    (some 9) (fun x => (Except.error ⟨BaseError.other 3, none⟩, x))
    ⟨BaseError.other 3, none⟩ (by decide) rfl (fun x => ⟨rfl, rfl⟩)
  simpa [sampleEvaluator, Evaluator.new, to_diagnostic_frames] using h

/-- Claim C5: in a nest of two `with_call_stack` invocations whose
innermost body fails with a fresh error, the diagnostic stack is
attached exactly once — at the innermost boundary, so it contains both
frames — and the enclosing invocation propagates the error with that
attachment unchanged (no re-capture: a re-capture at the outer boundary
would have produced a list missing the inner frame). -/
theorem C5_enriched_exactly_once {R : Type} (e : Evaluator) (f g : Value)
    (sp1 sp2 : Option Span) (err : EvalError)
    (hlen : e.callStack.length + 1 < MAX_CALLSTACK_SIZE)
    (hcs : err.callStack = none) :
    (e.with_call_stack f sp1 (fun x =>
        x.with_call_stack g sp2
          (fun y => ((Except.error err : Except EvalError R), y)))).1
      = Except.error
          ⟨err.base,
           some (⟨g, sp2.getD 0⟩ :: ⟨f, sp1.getD 0⟩
             :: to_diagnostic_frames e.callStack)⟩ := by
  have hout : e.callStack.length < MAX_CALLSTACK_SIZE :=
    Nat.lt_of_le_of_lt (Nat.le_succ _) hlen
  rw [with_call_stack_eq e f sp1 _ hout]
  have hP : (pushedState e f sp1).callStack.length < MAX_CALLSTACK_SIZE := by
    rw [pushedState_callStack]
    simpa using hlen
  rw [with_call_stack_eq _ g sp2 _ hP]
  simp only [add_diagnostics, hcs, pushedState_callStack,
    to_diagnostic_frames, List.map_cons]

/-- Claim C5 witness: two concrete nested failing calls produce the
error enriched once with both frames, innermost first. -/
theorem C5_enriched_exactly_once_witness :
    (sampleEvaluator.with_call_stack (Value.mutable 1) (some 4) (fun x =>
        x.with_call_stack (Value.mutable 2) (some 5)
          (fun y => ((Except.error ⟨BaseError.other 3, none⟩ :
            Except EvalError Nat), y)))).1
      = Except.error ⟨BaseError.other 3,
          some [⟨Value.mutable 2, 5⟩, ⟨Value.mutable 1, 4⟩]⟩ := by
  have h := C5_enriched_exactly_once (R := Nat) sampleEvaluator
    (Value.mutable 1) (Value.mutable 2) (some 4) (some 5)
    ⟨BaseError.other 3, none⟩ (by decide) rfl
  simpa [sampleEvaluator, Evaluator.new, to_diagnostic_frames] using h
